import Mathlib

/-!
Shallow embedding of the request cache-policy subsystem (`CachePolicy`,
Cache-Control header parsing, expiration checks) of the `@warp-drive` /
`ember-data` request-utils module, together with theorems checking the
natural-language specification against this embedding.

Modelling conventions:
* JS strings are Lean `String` / `List Char`; JS numbers appearing in this
  code are integers in every reachable path, so they are modelled as
  `Int` / `Nat` (`Number.parseInt` yields an integer or NaN; NaN is `none`).
* `Set` / `Map` objects are modelled as insertion-ordered duplicate-free
  lists and association lists, matching JS iteration order semantics.
* The platform's `Date.now()` and `new Date(s).getTime()` are environment
  parameters (`Env.now`, `Env.parseDate`); `Env.parseDate` models the date
  parser on date strings that parse successfully (a NaN date never occurs
  in the scenarios considered by the specification).
* `assert` from `@warp-drive/build-config/macros` is a debug-build
  diagnostic stripped from production builds.  Where the code contains its
  own recovery path after the assert (`parseCacheControlValue`), the
  recovery path is the modelled behaviour, matching the specification's
  "degraded, not fatal" taxonomy; the `CachePolicy` constructor has no
  recovery path and its asserts are modelled as construction failure
  (`Except.error`), matching the "fatal, construction-time" taxonomy.
-/

/-- Association-list lookup: first entry whose key matches (JS object /
`Map.get` semantics). -/
def alookup {κ α : Type} [DecidableEq κ] : List (κ × α) → κ → Option α
  | [], _ => none
  | (k, v) :: r, key => if k = key then some v else alookup r key

/-- Association-list update: overwrite the first entry whose key matches,
keeping its position, else append (JS object assignment / `Map.set`
semantics). -/
def aset {κ α : Type} [DecidableEq κ] : List (κ × α) → κ → α → List (κ × α)
  | [], key, v => [(key, v)]
  | (k, w) :: r, key, v => if k = key then (k, v) :: r else (k, w) :: aset r key v

/-- JS `Set.add`: append if not already present (insertion order kept). -/
def jadd (s : List String) (x : String) : List String :=
  if x ∈ s then s else s ++ [x]

/-- JS `Set.delete`: remove the (single, by the `Set` invariant)
occurrence. -/
def jdel (s : List String) (x : String) : List String :=
  s.erase x

/-- The characters `Number.parseInt` skips as leading whitespace
(the relevant ASCII ones). -/
def isJsSpace (c : Char) : Bool :=
  c = ' ' ∨ c = '\t' ∨ c = '\n' ∨ c = '\r'

/-- ASCII decimal digit test. -/
def isDigitCh (c : Char) : Bool :=
  48 ≤ c.toNat ∧ c.toNat ≤ 57

/-- ASCII hexadecimal digit test. -/
def isHexCh (c : Char) : Bool :=
  isDigitCh c ∨ (97 ≤ c.toNat ∧ c.toNat ≤ 102) ∨ (65 ≤ c.toNat ∧ c.toNat ≤ 70)

/-- Numeric value of a hexadecimal digit character. -/
def hexVal (c : Char) : Nat :=
  if isDigitCh c then c.toNat - 48
  else if 97 ≤ c.toNat then c.toNat - 87
  else c.toNat - 55

/-- Accumulate a run of decimal digit characters into a natural number. -/
def decFold : List Char → Nat → Nat
  | [], a => a
  | c :: r, a => decFold r (10 * a + (c.toNat - 48))

/-- Accumulate a run of hexadecimal digit characters into a natural
number. -/
def hexFold : List Char → Nat → Nat
  | [], a => a
  | c :: r, a => hexFold r (16 * a + hexVal c)

/-- Parse the maximal leading run of decimal digits; `none` when the first
character is not a digit (JS NaN). -/
def parseDec (cs : List Char) : Option Nat :=
  match cs with
  | [] => none
  | c :: _ => if isDigitCh c then some (decFold (cs.takeWhile isDigitCh) 0) else none

/-- Parse the maximal leading run of hexadecimal digits; `none` when the
first character is not a hex digit (JS NaN). -/
def parseHex (cs : List Char) : Option Nat :=
  match cs with
  | [] => none
  | c :: _ => if isHexCh c then some (hexFold (cs.takeWhile isHexCh) 0) else none

/-- The unsigned part of `Number.parseInt` with no radix argument: a
`0x`/`0X` prefix switches to hexadecimal, otherwise decimal. -/
def parseUnsigned (cs : List Char) : Option Nat :=
  if cs.head? = some '0' ∧ (cs.drop 1).head? = some 'x' ∨
     cs.head? = some '0' ∧ (cs.drop 1).head? = some 'X' then
    parseHex (cs.drop 2)
  else
    parseDec cs

/-- Sign handling of `Number.parseInt`, applied after whitespace removal. -/
def jsParseIntCore (cs : List Char) : Option Int :=
  match cs with
  | [] => none
  | c :: r =>
    if c = '-' then (parseUnsigned r).map (fun n => -(n : Int))
    else if c = '+' then (parseUnsigned r).map (fun n => (n : Int))
    else (parseUnsigned (c :: r)).map (fun n => (n : Int))

/-- Model of `Number.parseInt(s)` (no radix argument): `none` is NaN. -/
def jsParseInt (s : String) : Option Int :=
  jsParseIntCore (s.data.dropWhile isJsSpace)

/-- Sign handling of `parseInt(s, 10)` (decimal only, no hex prefix). -/
def jsParseInt10Core (cs : List Char) : Option Int :=
  match cs with
  | [] => none
  | c :: r =>
    if c = '-' then (parseDec r).map (fun n => -(n : Int))
    else if c = '+' then (parseDec r).map (fun n => (n : Int))
    else (parseDec (c :: r)).map (fun n => (n : Int))

/-- Model of `parseInt(s, 10)`: `none` is NaN. -/
def jsParseInt10 (s : String) : Option Int :=
  jsParseInt10Core (s.data.dropWhile isJsSpace)

/-- A parsed Cache-Control directive value: boolean flag directives are
`true` in the source object, numeric directives carry a number. -/
inductive CCVal : Type
  | flag : CCVal
  | num : Nat → CCVal
deriving DecidableEq

/-- The parsed `CacheControlValue` object: an insertion-ordered record of
directive name to value. -/
abbrev CacheControlValue := List (String × CCVal)

/-- `NUMERIC_KEYS`: the directives whose values are coerced to numbers. -/
def numericKeys : List String :=
  ["max-age", "s-maxage", "stale-if-error", "stale-while-revalidate"]

/-- `parseCacheControlValue`: `Number.parseInt` the directive value; NaN
or negative values are clamped to `0` (the asserts before the clamp are
debug diagnostics stripped in production). -/
def parseCacheControlValue (stringToParse : String) : Nat :=
  match jsParseInt stringToParse with
  | none => 0
  | some v => if v < 0 then 0 else v.toNat

/-- The directive assignment performed by the parse loop at a `,` or at
the last character: numeric keys get the parsed number, other keys the
flag `true`. -/
def ccAssign (m : CacheControlValue) (key value : List Char) : CacheControlValue :=
  aset m (String.mk key)
    (if String.mk key ∈ numericKeys then CCVal.num (parseCacheControlValue (String.mk value))
     else CCVal.flag)

/-- The character loop of the Cache-Control parser (the function wrapped
in `CACHE_CONTROL_CACHE`).  State: accumulated `key`, `value`, and the
`isParsingKey` flag; `,` commits the current directive and resets, `=`
switches to value accumulation, whitespace is skipped; the branches that
do not `continue` also commit the directive when at the last character. -/
def ccLoop : List Char → List Char → List Char → Bool → CacheControlValue → CacheControlValue
  | [], _, _, _, m => m
  | c :: rest, key, value, isParsingKey, m =>
    if c = ',' then
      ccLoop rest [] [] true (ccAssign m key value)
    else if c = '=' then
      if rest.isEmpty then ccAssign m key value
      else ccLoop rest key value false m
    else if c = ' ' ∨ c = '\t' ∨ c = '\n' then
      ccLoop rest key value isParsingKey m
    else if isParsingKey then
      if rest.isEmpty then ccAssign m (key ++ [c]) value
      else ccLoop rest (key ++ [c]) value isParsingKey m
    else
      if rest.isEmpty then ccAssign m key (value ++ [c])
      else ccLoop rest key (value ++ [c]) isParsingKey m

/-- `parseCacheControl`: parse a raw Cache-Control header string.  (The
`LRUCache` memoisation wrapper is behaviourally the identity and is not
modelled.) -/
def parseCacheControl (header : String) : CacheControlValue :=
  ccLoop header.data [] [] true []

example : parseCacheControl "max-age=not-a-number" = [("max-age", CCVal.num 0)] := by decide
example : parseCacheControl "max-age=100" = [("max-age", CCVal.num 100)] := by decide
example : parseCacheControl "no-store, max-age=25" =
    [("no-store", CCVal.flag), ("max-age", CCVal.num 25)] := by decide
example : parseCacheControl "max-age=-5" = [("max-age", CCVal.num 0)] := by decide
example : jsParseInt "0x10" = some 16 := by decide
example : jsParseInt "  -42abc" = some (-42) := by decide
example : jsParseInt "zz" = none := by decide

/-- HTTP-style headers: name/value pairs with case-insensitive `get`. -/
structure HeadersT : Type where
  entries : List (String × String)
deriving DecidableEq

/-- ASCII lowercase of a character (header names are ASCII). -/
def lowerChar (c : Char) : Char :=
  if 65 ≤ c.toNat ∧ c.toNat ≤ 90 then Char.ofNat (c.toNat + 32) else c

/-- ASCII lowercase of a string. -/
def lowerStr (s : String) : String :=
  String.mk (s.data.map lowerChar)

/-- Case-insensitive header lookup, first match (`Headers.get`). -/
def hFind : List (String × String) → String → Option String
  | [], _ => none
  | (k, v) :: r, name => if lowerStr k = lowerStr name then some v else hFind r name

/-- `headers.get(name)` on the headers object. -/
def hGet (h : HeadersT) (name : String) : Option String :=
  hFind h.entries name

/-- JS truthiness of a `string | null` header value: `null` and the empty
string are falsy. -/
def strTruthy : Option String → Bool
  | none => false
  | some s => s ≠ ""

/-- The execution environment of the policy: the clock (`Date.now()`),
the build-time `TESTING` constant, and the platform date parser
(`new Date(s).getTime()` on strings that parse to a valid date). -/
structure Env : Type where
  now : Int
  testing : Bool
  parseDate : String → Int

/-- A cached response envelope (`ResponseInfo`): status and headers. -/
structure ResponseInfo : Type where
  status : Int := 200
  headers : Option HeadersT := none
deriving DecidableEq

/-- The cached structured document returned by `cache.peekRequest`. -/
structure StructuredDocument : Type where
  response : Option ResponseInfo := none
deriving DecidableEq

/-- `constraints.headers`: which header constraints participate in
expiration.  Field `cacheControl` is the `'Cache-Control'` key, `expires`
the `Expires` key, `xWarpDriveExpires` the `'X-WarpDrive-Expires'` key. -/
structure HeaderConstraints : Type where
  cacheControl : Bool := false
  expires : Bool := false
  xWarpDriveExpires : Bool := false

/-- The `constraints` option: header flags plus the optional custom
`isExpired` predicate (returning `none` for "unknown"). -/
structure Constraints : Type where
  headers : Option HeaderConstraints := none
  isExpiredFn : Option (StructuredDocument → Option Bool) := none

/-- `PolicyConfig` after successful construction. -/
structure PolicyConfig : Type where
  apiCacheSoftExpires : Int
  apiCacheHardExpires : Int
  disableTestOptimization : Bool := false
  constraints : Option Constraints := none

/-- JS `||` on an optional number: the left value is kept unless it is
absent or `0` (falsy), in which case the right value is taken.  Models
`cacheControlValue['max-age'] || cacheControlValue['s-maxage']`. -/
def jsOr (a b : Option Nat) : Option Nat :=
  match a with
  | some v => if v = 0 then b else some v
  | none => b

/-- Read a directive from a parsed Cache-Control object as a number; a
flag directive coerces to `1` (JS `true` coerces to 1 in arithmetic and
is truthy), an absent directive is `none` (undefined). -/
def ccNum (m : CacheControlValue) (k : String) : Option Nat :=
  match alookup m k with
  | some (CCVal.num n) => some n
  | some CCVal.flag => some 1
  | none => none

/-- The `X-WarpDrive-Expires` constraint check: `some verdict` when the
constraint applies (flag enabled and header present and truthy), `none`
when evaluation falls through to the next check. -/
def checkWarpDrive (env : Env) (headers : HeadersT) (hc : HeaderConstraints) : Option Bool :=
  if hc.xWarpDriveExpires then
    match hGet headers "X-WarpDrive-Expires" with
    | some v => if v ≠ "" then some (decide (env.now ≥ env.parseDate v)) else none
    | none => none
  else none

/-- The `Cache-Control` constraint check: requires truthy `Cache-Control`,
`Age` and `Date` headers, a truthy (nonzero) selected max-age
(`max-age || s-maxage`), and an `Age` that parses to a non-negative
number; then expired iff `now ≥ Date + (maxAge - age) * 1000`.  `none`
when any requirement fails and evaluation falls through. -/
def checkCacheControl (env : Env) (headers : HeadersT) (hc : HeaderConstraints) : Option Bool :=
  if hc.cacheControl then
    match hGet headers "Cache-Control", hGet headers "Age", hGet headers "Date" with
    | some cacheControl, some age, some date =>
      if cacheControl ≠ "" ∧ age ≠ "" ∧ date ≠ "" then
        let cacheControlValue := parseCacheControl cacheControl
        let maxAge := jsOr (ccNum cacheControlValue "max-age") (ccNum cacheControlValue "s-maxage")
        match maxAge with
        | some ma =>
          if ma ≠ 0 then
            match jsParseInt10 age with
            | some ageValue =>
              if 0 ≤ ageValue then
                let dateValue := env.parseDate date
                let expirationTime := dateValue + ((ma : Int) - ageValue) * 1000
                some (decide (env.now ≥ expirationTime))
              else none
            | none => none
          else none
        | none => none
      else none
    | _, _, _ => none
  else none

/-- The `Expires` constraint check: `some verdict` when the flag is
enabled and the header present and truthy, `none` otherwise. -/
def checkExpires (env : Env) (headers : HeadersT) (hc : HeaderConstraints) : Option Bool :=
  if hc.expires then
    match hGet headers "Expires" with
    | some v => if v ≠ "" then some (decide (env.now ≥ env.parseDate v)) else none
    | none => none
  else none

/-- The trailing `Date`-based check of `isExpired`: no truthy `Date`
header means expired; otherwise expired iff `now ≥ Date + threshold`,
where the threshold is the hard-expiry duration, replaced by the
soft-expiry duration in a `TESTING` build unless test optimisation is
disabled. -/
def dateFallback (env : Env) (headers : HeadersT) (config : PolicyConfig) : Bool :=
  match hGet headers "Date" with
  | none => true
  | some d =>
    if d = "" then true
    else
      let expirationTime :=
        if env.testing ∧ ¬config.disableTestOptimization then config.apiCacheSoftExpires
        else config.apiCacheHardExpires
      decide (env.now ≥ env.parseDate d + expirationTime)

/-- The tail of the constraint chain from the `Expires` check onward:
what `isExpired` evaluates once the `X-WarpDrive-Expires` and
`Cache-Control` checks have fallen through. -/
def expiresAndLater (env : Env) (headers : HeadersT) (hc : HeaderConstraints)
    (config : PolicyConfig) : Bool :=
  match checkExpires env headers hc with
  | some r => r
  | none => dateFallback env headers config

/-- The header-driven part of `isExpired`, after the custom predicate and
the missing-headers check: the constraint chain (only entered when
`constraints.headers` is provided), then the `Date` fallback. -/
def isExpiredHeaders (env : Env) (headers : HeadersT) (config : PolicyConfig) : Bool :=
  match config.constraints.bind (·.headers) with
  | some hc =>
    match checkWarpDrive env headers hc with
    | some r => r
    | none =>
      match checkCacheControl env headers hc with
      | some r => r
      | none => expiresAndLater env headers hc config
  | none => dateFallback env headers config

/-- `isExpired(identifier, request, config)`: the custom predicate first
(its non-`null` verdict is decisive), then missing headers mean expired,
then the header chain.  The `identifier` argument is used only for
logging in the source and is omitted; the caller guarantees
`request.response` is present (`request.response!`). -/
def isExpired (env : Env) (request : StructuredDocument) (config : PolicyConfig) : Bool :=
  let predVerdict : Option Bool :=
    match config.constraints with
    | some cs =>
      match cs.isExpiredFn with
      | some f => f request
      | none => none
    | none => none
  match predVerdict with
  | some r => r
  | none =>
    match request.response with
    | none => true
    | some resp =>
      match resp.headers with
      | none => true
      | some headers => isExpiredHeaders env headers config

/-- A document identifier (its `lid`; identifiers are interned one per
cache key, so `lid` equality coincides with object identity). -/
abbrev Ident := String

/-- The per-store invalidation record: the explicitly-invalidated set and
the resource-type to dependent-document-identifiers map. -/
structure StoreCache : Type where
  invalidated : List Ident := []
  types : List (String × List Ident) := []
deriving DecidableEq

/-- The `CachePolicy` instance state: the stored config and the per-store
records (`_stores`, a weakly-keyed map modelled by store id). -/
structure CachePolicy : Type where
  config : PolicyConfig
  stores : List (Nat × StoreCache) := []

/-- A store as seen by the policy: its identity (the WeakMap key) and its
content cache's non-mutating `peekRequest` lookup. -/
structure Store : Type where
  sid : Nat
  peekRequest : Ident → Option StructuredDocument

/-- Lookup of a store's record in `_stores`, without creating one. -/
def lookupStore (p : CachePolicy) (sid : Nat) : Option StoreCache :=
  alookup p.stores sid

/-- Write back a store's record (`WeakMap.set`). -/
def setStoreRec (p : CachePolicy) (sid : Nat) (sc : StoreCache) : CachePolicy :=
  { p with stores := aset p.stores sid sc }

/-- `_getStore`: return the store's record, lazily creating an empty one
on first access. -/
def getStoreRec (p : CachePolicy) (sid : Nat) : StoreCache × CachePolicy :=
  match lookupStore p sid with
  | some sc => (sc, p)
  | none => ({}, { p with stores := aset p.stores sid {} })

/-- The invalidated set of a store's record (empty when no record). -/
def invalidatedOf (p : CachePolicy) (sid : Nat) : List Ident :=
  match lookupStore p sid with
  | some sc => sc.invalidated
  | none => []

/-- The dependent-identifier set registered for a type in a store's
record (empty when absent). -/
def typeDeps (p : CachePolicy) (sid : Nat) (t : String) : List Ident :=
  match lookupStore p sid with
  | some sc =>
    match alookup sc.types t with
    | some s => s
    | none => []
  | none => []

/-- `invalidateRequest(identifier, store)`: add the identifier to the
store's invalidated set. -/
def invalidateRequest (p : CachePolicy) (identifier : Ident) (sid : Nat) : CachePolicy :=
  let g := getStoreRec p sid
  setStoreRec g.2 sid { g.1 with invalidated := jadd g.1.invalidated identifier }

/-- `invalidateRequestsForType(type, store)`: add every identifier
registered for the type to the invalidated set, emitting an
`'invalidated'` notification for each (the returned list is the
notification log, in emission order). -/
def invalidateRequestsForType (p : CachePolicy) (type : String) (sid : Nat) :
    CachePolicy × List Ident :=
  let g := getStoreRec p sid
  match alookup g.1.types type with
  | some s =>
    (setStoreRec g.2 sid { g.1 with invalidated := s.foldl jadd g.1.invalidated }, s)
  | none => (g.2, [])

/-- A record reference in a request payload (`request.records`). -/
structure RecordId : Type where
  type : String
  id : Option String := none
deriving DecidableEq

/-- `request.cacheOptions`. -/
structure CacheOptions : Type where
  types : Option (List String) := none
deriving DecidableEq

/-- The parts of `ImmutableRequestInfo` that `didRequest` reads. -/
structure RequestInfo : Type where
  op : Option String := none
  records : Option (List RecordId) := none
  cacheOptions : Option CacheOptions := none
deriving DecidableEq

/-- `response?.status ?? 0`: the status of a possibly-null response. -/
def statusOf (response : Option ResponseInfo) : Int :=
  match response with
  | some r => r.status
  | none => 0

/-- The set of types collected by the create branch of `didRequest`:
`new Set(request.records?.map(r => r.type))` extended with
`request.cacheOptions?.types`. -/
def collectTypes (request : RequestInfo) : List String :=
  let recTypes :=
    match request.records with
    | some rs => rs.map (fun (r : RecordId) => r.type)
    | none => []
  let base := recTypes.foldl jadd []
  match request.cacheOptions.bind (·.types) with
  | some ts => ts.foldl jadd base
  | none => base

/-- The register branch of `didRequest`: for each listed type, add the
identifier to the type's dependency set and delete it from the
invalidated set if the set already exists, else create a fresh set for
the type (without touching the invalidated set). -/
def registerTypes (sc : StoreCache) (identifier : Ident) (ts : List String) : StoreCache :=
  ts.foldl
    (fun sc t =>
      match alookup sc.types t with
      | some s =>
        { types := aset sc.types t (jadd s identifier),
          invalidated := jdel sc.invalidated identifier }
      | none => { sc with types := aset sc.types t [identifier] })
    sc

/-- `didRequest(request, response, identifier, store)`.  On a successful
(`status` in `[200,400)`) create-record request, invalidate all documents
dependent on any collected type; otherwise, when an identifier is present
and the request's cache options list a non-empty `types` array, register
the identifier for those types.  Returns the updated policy and the
notification log. -/
def didRequest (p : CachePolicy) (request : RequestInfo) (response : Option ResponseInfo)
    (identifier : Option Ident) (sid : Nat) : CachePolicy × List Ident :=
  if request.op = some "createRecord" then
    if 200 ≤ statusOf response ∧ statusOf response < 400 then
      (collectTypes request).foldl
        (fun acc type =>
          let r := invalidateRequestsForType acc.1 type sid
          (r.1, acc.2 ++ r.2))
        (p, [])
    else (p, [])
  else
    match identifier with
    | some ident =>
      match request.cacheOptions.bind (·.types) with
      | some ts =>
        if ts.length ≠ 0 then
          let g := getStoreRec p sid
          (setStoreRec g.2 sid (registerTypes g.1 ident ts), [])
        else (p, [])
      | none => (p, [])
    | none => (p, [])

/-- `isHardExpired(identifier, store)`: explicit invalidation first, then
a missing cache entry or missing response means expired, then the header
logic of `isExpired`.  The returned policy reflects the (lazy-creation
only) effect of `_getStore`. -/
def isHardExpired (env : Env) (p : CachePolicy) (store : Store) (identifier : Ident) :
    Bool × CachePolicy :=
  let g := getStoreRec p store.sid
  if identifier ∈ g.1.invalidated then (true, g.2)
  else
    match store.peekRequest identifier with
    | none => (true, g.2)
    | some cached =>
      match cached.response with
      | none => (true, g.2)
      | some _ => (isExpired env cached p.config, g.2)

/-- `isSoftExpired(identifier, store)`: always fresh in a `TESTING` build
unless test optimisation is disabled; otherwise stale when there is no
cached response, no truthy `date` header, or
`now ≥ Date + apiCacheSoftExpires`.  Returns `none` when the cached
response exists but carries no headers object (the source would fault
dereferencing `headers.get`); no state is read or written. -/
def isSoftExpired (env : Env) (p : CachePolicy) (store : Store) (identifier : Ident) :
    Option Bool :=
  if env.testing ∧ ¬p.config.disableTestOptimization then some false
  else
    match store.peekRequest identifier with
    | some cached =>
      match cached.response with
      | some resp =>
        match resp.headers with
        | none => none
        | some headers =>
          match hGet headers "date" with
          | none => some true
          | some d =>
            if d = "" then some true
            else some (decide (env.now ≥ env.parseDate d + p.config.apiCacheSoftExpires))
      | none => some true
    | none => some true

/-- A raw (unvalidated) JS value for the constructor's `typeof` checks. -/
inductive JsVal : Type
  | num : Int → JsVal
  | str : String → JsVal
  | boolV : Bool → JsVal
  | undef : JsVal
deriving DecidableEq

/-- `typeof v === 'number'`. -/
def JsVal.isNumber : JsVal → Bool
  | num _ => true
  | _ => false

/-- Numeric payload of a value already known to be a number. -/
def JsVal.toNum : JsVal → Int
  | num n => n
  | _ => 0

/-- The constructor's view of an arbitrary supplied config object. -/
structure RawPolicyConfig : Type where
  apiCacheSoftExpires : JsVal := JsVal.undef
  apiCacheHardExpires : JsVal := JsVal.undef
  disableTestOptimization : Bool := false
  constraints : Option Constraints := none

/-- The `CachePolicy` constructor: asserts that a config was supplied and
that both expiry durations are numbers (fatal, construction-time
`ConfigurationError`), then stores the config with an empty `_stores`
map. -/
def constructPolicy (config : Option RawPolicyConfig) : Except String CachePolicy :=
  match config with
  | none => Except.error "You must pass a config to the CachePolicy"
  | some c =>
    if ¬c.apiCacheSoftExpires.isNumber then
      Except.error "You must pass a apiCacheSoftExpires to the CachePolicy"
    else if ¬c.apiCacheHardExpires.isNumber then
      Except.error "You must pass a apiCacheHardExpires to the CachePolicy"
    else
      Except.ok
        { config :=
            { apiCacheSoftExpires := c.apiCacheSoftExpires.toNum,
              apiCacheHardExpires := c.apiCacheHardExpires.toNum,
              disableTestOptimization := c.disableTestOptimization,
              constraints := c.constraints },
          stores := [] }

/-- The record of a store, defaulting to the empty record. -/
def storeRecOf (p : CachePolicy) (sid : Nat) : StoreCache :=
  match lookupStore p sid with
  | some sc => sc
  | none => {}

theorem alookup_aset_self {κ α : Type} [DecidableEq κ] (m : List (κ × α)) (k : κ) (v : α) :
    alookup (aset m k v) k = some v := by
  induction m with
  | nil => simp [aset, alookup]
  | cons e r ih =>
    obtain ⟨k', w⟩ := e
    by_cases h : k' = k
    · simp [aset, alookup, h]
    · simp [aset, alookup, h, ih]

theorem alookup_aset_ne {κ α : Type} [DecidableEq κ] (m : List (κ × α)) (k k' : κ) (v : α)
    (h : k' ≠ k) : alookup (aset m k v) k' = alookup m k' := by
  induction m with
  | nil => simp only [aset, alookup, if_neg (Ne.symm h)]
  | cons e r ih =>
    obtain ⟨k₀, w⟩ := e
    by_cases h0 : k₀ = k
    · subst h0
      simp only [aset, if_pos rfl, alookup, if_neg (Ne.symm h)]
    · simp only [aset, if_neg h0]
      by_cases h1 : k₀ = k'
      · simp [alookup, h1]
      · simp [alookup, h1, ih]

theorem mem_jadd (s : List String) (x y : String) :
    x ∈ jadd s y ↔ x ∈ s ∨ x = y := by
  by_cases h : y ∈ s
  · simp only [jadd, if_pos h]
    constructor
    · exact fun hx => Or.inl hx
    · rintro (hx | rfl) <;> [exact hx; exact h]
  · simp [jadd, if_neg h]

theorem jadd_mono (s : List String) (x y : String) (h : x ∈ s) : x ∈ jadd s y :=
  (mem_jadd s x y).mpr (Or.inl h)

theorem mem_foldl_jadd (l : List String) (s : List String) (x : String) :
    x ∈ l.foldl jadd s ↔ x ∈ s ∨ x ∈ l := by
  induction l generalizing s with
  | nil => simp
  | cons a r ih =>
    simp only [List.foldl_cons, ih, mem_jadd, List.mem_cons]
    tauto

theorem jadd_nodup (s : List String) (x : String) (h : s.Nodup) : (jadd s x).Nodup := by
  by_cases hx : x ∈ s
  · simpa [jadd, hx] using h
  · simp only [jadd, if_neg hx]
    simp [List.nodup_append, h, hx]

theorem not_mem_jdel (s : List String) (x : String) (h : s.Nodup) : x ∉ jdel s x := by
  simpa [jdel] using (List.Nodup.not_mem_erase (a := x) h)

theorem mem_jdel_of_mem (s : List String) (x y : String) (hxy : x ≠ y) (h : x ∈ s) :
    x ∈ jdel s y := by
  simpa [jdel] using (List.mem_erase_of_ne hxy).mpr h

theorem jdel_subset (s : List String) (x y : String) (h : x ∈ jdel s y) : x ∈ s := by
  simpa [jdel] using List.mem_of_mem_erase h

theorem getStoreRec_fst (p : CachePolicy) (sid : Nat) :
    (getStoreRec p sid).1 = storeRecOf p sid := by
  unfold getStoreRec storeRecOf
  cases lookupStore p sid <;> rfl

theorem lookupStore_getStoreRec (p : CachePolicy) (sid s' : Nat) :
    lookupStore (getStoreRec p sid).2 s' =
      if s' = sid then some (storeRecOf p sid) else lookupStore p s' := by
  unfold getStoreRec storeRecOf lookupStore
  cases h : alookup p.stores sid with
  | some sc =>
    by_cases hs : s' = sid
    · simpa [hs] using h
    · simp [hs]
  | none =>
    by_cases hs : s' = sid
    · subst hs
      simp [alookup_aset_self]
    · simp [hs, alookup_aset_ne _ _ _ _ hs]

theorem lookupStore_setStoreRec (p : CachePolicy) (sid s' : Nat) (sc : StoreCache) :
    lookupStore (setStoreRec p sid sc) s' =
      if s' = sid then some sc else lookupStore p s' := by
  unfold setStoreRec lookupStore
  by_cases hs : s' = sid
  · simp [hs, alookup_aset_self]
  · simp [hs, alookup_aset_ne _ _ _ _ hs]

theorem lookupStore_invalidateRequest (p : CachePolicy) (identifier : Ident) (sid s' : Nat) :
    lookupStore (invalidateRequest p identifier sid) s' =
      if s' = sid then
        some { storeRecOf p sid with
               invalidated := jadd (storeRecOf p sid).invalidated identifier }
      else lookupStore p s' := by
  unfold invalidateRequest
  rw [lookupStore_setStoreRec, getStoreRec_fst, lookupStore_getStoreRec]
  by_cases hs : s' = sid <;> simp [hs]

theorem invalidatedOf_invalidateRequest (p : CachePolicy) (identifier : Ident) (sid : Nat) :
    invalidatedOf (invalidateRequest p identifier sid) sid =
      jadd (invalidatedOf p sid) identifier := by
  unfold invalidatedOf
  rw [lookupStore_invalidateRequest]
  simp [storeRecOf]
  cases lookupStore p sid <;> rfl

theorem invalidatedOf_eq (p : CachePolicy) (sid : Nat) :
    invalidatedOf p sid = (storeRecOf p sid).invalidated := by
  unfold invalidatedOf storeRecOf
  cases lookupStore p sid <;> rfl

theorem typeDeps_eq (p : CachePolicy) (sid : Nat) (t : String) :
    typeDeps p sid t =
      match alookup (storeRecOf p sid).types t with
      | some s => s
      | none => [] := by
  unfold typeDeps storeRecOf
  cases lookupStore p sid with
  | some sc => rfl
  | none => simp [alookup]

theorem lookupStore_invalForType (p : CachePolicy) (t : String) (sid s' : Nat) :
    lookupStore (invalidateRequestsForType p t sid).1 s' =
      if s' = sid then
        some { invalidated := (typeDeps p sid t).foldl jadd (invalidatedOf p sid),
               types := (storeRecOf p sid).types }
      else lookupStore p s' := by
  unfold invalidateRequestsForType
  simp only [getStoreRec_fst]
  rw [typeDeps_eq, invalidatedOf_eq]
  cases h : alookup (storeRecOf p sid).types t with
  | some s =>
    simp only [lookupStore_setStoreRec, lookupStore_getStoreRec]
    by_cases hs : s' = sid <;> simp [hs]
  | none =>
    simp only [lookupStore_getStoreRec]
    by_cases hs : s' = sid <;> simp [hs]

theorem invalidatedOf_invalForType (p : CachePolicy) (t : String) (sid : Nat) :
    invalidatedOf ((invalidateRequestsForType p t sid).1) sid =
      (typeDeps p sid t).foldl jadd (invalidatedOf p sid) := by
  rw [invalidatedOf_eq]
  unfold storeRecOf
  rw [lookupStore_invalForType]
  simp

theorem typeDeps_invalForType (p : CachePolicy) (t : String) (sid : Nat) (s' : Nat) (t' : String) :
    typeDeps ((invalidateRequestsForType p t sid).1) s' t' = typeDeps p s' t' := by
  rw [typeDeps_eq, typeDeps_eq]
  unfold storeRecOf
  rw [lookupStore_invalForType]
  by_cases hs : s' = sid
  · subst hs
    simp only [if_pos rfl]
    unfold storeRecOf
    cases lookupStore p s' <;> rfl
  · simp [hs]

theorem invalidatedOf_invalForType_mono (p : CachePolicy) (t : String) (sid : Nat) (x : Ident)
    (h : x ∈ invalidatedOf p sid) :
    x ∈ invalidatedOf ((invalidateRequestsForType p t sid).1) sid := by
  rw [invalidatedOf_invalForType, mem_foldl_jadd]
  exact Or.inl h

theorem invalidatedOf_invalForType_dep (p : CachePolicy) (t : String) (sid : Nat) (x : Ident)
    (h : x ∈ typeDeps p sid t) :
    x ∈ invalidatedOf ((invalidateRequestsForType p t sid).1) sid := by
  rw [invalidatedOf_invalForType, mem_foldl_jadd]
  exact Or.inr h

theorem isHardExpired_of_invalidated (env : Env) (p : CachePolicy) (store : Store)
    (identifier : Ident) (h : identifier ∈ invalidatedOf p store.sid) :
    (isHardExpired env p store identifier).1 = true := by
  have h' : identifier ∈ (getStoreRec p store.sid).1.invalidated := by
    rw [getStoreRec_fst, ← invalidatedOf_eq]
    exact h
  unfold isHardExpired
  simp [h']

theorem isHardExpired_snd (env : Env) (p : CachePolicy) (store : Store) (identifier : Ident) :
    (isHardExpired env p store identifier).2 = (getStoreRec p store.sid).2 := by
  unfold isHardExpired
  by_cases h : identifier ∈ (getStoreRec p store.sid).1.invalidated
  · simp [h]
  · simp only [h]
    cases store.peekRequest identifier with
    | none => simp
    | some cached =>
      obtain ⟨resp⟩ := cached
      cases resp <;> simp

/-- The policy component of the create branch of `didRequest`: invalidate
requests for each collected type in order. -/
def invalFold (l : List String) (p : CachePolicy) (sid : Nat) : CachePolicy :=
  l.foldl (fun q t => (invalidateRequestsForType q t sid).1) p

theorem createFold_fst (l : List String) (p : CachePolicy) (acc : List Ident) (sid : Nat) :
    (l.foldl
        (fun acc type =>
          let r := invalidateRequestsForType acc.1 type sid
          (r.1, acc.2 ++ r.2))
        (p, acc)).1 = invalFold l p sid := by
  induction l generalizing p acc with
  | nil => rfl
  | cons a r ih =>
    simp only [List.foldl_cons, invalFold]
    exact ih _ _

theorem didRequest_create_eq (p : CachePolicy) (request : RequestInfo)
    (response : Option ResponseInfo) (identifier : Option Ident) (sid : Nat)
    (hop : request.op = some "createRecord")
    (h2 : 200 ≤ statusOf response) (h3 : statusOf response < 400) :
    (didRequest p request response identifier sid).1 = invalFold (collectTypes request) p sid := by
  unfold didRequest
  simp only [hop, if_pos rfl, h2, h3, and_self, if_true]
  exact createFold_fst _ _ _ _

theorem invalFold_nil (p : CachePolicy) (sid : Nat) : invalFold [] p sid = p := rfl

theorem invalFold_cons (a : String) (r : List String) (p : CachePolicy) (sid : Nat) :
    invalFold (a :: r) p sid = invalFold r ((invalidateRequestsForType p a sid).1) sid := rfl

theorem registerTypes_nil (sc : StoreCache) (ident : Ident) :
    registerTypes sc ident [] = sc := rfl

theorem registerTypes_cons (sc : StoreCache) (ident : Ident) (a : String) (r : List String) :
    registerTypes sc ident (a :: r) =
      registerTypes
        (match alookup sc.types a with
         | some s =>
           { types := aset sc.types a (jadd s ident),
             invalidated := jdel sc.invalidated ident }
         | none => { sc with types := aset sc.types a [ident] })
        ident r := rfl

theorem typeDeps_invalFold (l : List String) (p : CachePolicy) (sid s' : Nat) (t' : String) :
    typeDeps (invalFold l p sid) s' t' = typeDeps p s' t' := by
  induction l generalizing p with
  | nil => rfl
  | cons a r ih =>
    rw [invalFold_cons, ih, typeDeps_invalForType]

theorem invalFold_mono (l : List String) (p : CachePolicy) (sid : Nat) (x : Ident)
    (h : x ∈ invalidatedOf p sid) : x ∈ invalidatedOf (invalFold l p sid) sid := by
  induction l generalizing p with
  | nil => exact h
  | cons a r ih =>
    rw [invalFold_cons]
    exact ih _ (invalidatedOf_invalForType_mono p a sid x h)

theorem invalFold_dep (l : List String) (p : CachePolicy) (sid : Nat) (t : String) (x : Ident)
    (ht : t ∈ l) (h : x ∈ typeDeps p sid t) :
    x ∈ invalidatedOf (invalFold l p sid) sid := by
  induction l generalizing p with
  | nil => cases ht
  | cons a r ih =>
    rw [invalFold_cons]
    rcases List.mem_cons.mp ht with rfl | htr
    · exact invalFold_mono r _ sid x (invalidatedOf_invalForType_dep p t sid x h)
    · exact ih _ htr (by rw [typeDeps_invalForType]; exact h)

theorem mem_collectTypes (request : RequestInfo) (t : String) :
    t ∈ collectTypes request ↔
      (∃ r ∈ (match request.records with | some rs => rs | none => ([] : List RecordId)),
          r.type = t) ∨
        t ∈ (match request.cacheOptions.bind (fun c => c.types) with
             | some ts => ts
             | none => ([] : List String)) := by
  unfold collectTypes
  cases request.cacheOptions.bind (fun c => c.types) with
  | some ts =>
    simp only [mem_foldl_jadd]
    cases request.records with
    | some rs => simp [mem_foldl_jadd, List.mem_map, eq_comm]
    | none => simp [mem_foldl_jadd]
  | none =>
    cases request.records with
    | some rs => simp [mem_foldl_jadd, List.mem_map, eq_comm]
    | none => simp [mem_foldl_jadd]

theorem registerTypes_inval_subset (ts : List String) (sc : StoreCache) (ident x : Ident)
    (h : x ∈ (registerTypes sc ident ts).invalidated) : x ∈ sc.invalidated := by
  induction ts generalizing sc with
  | nil => exact h
  | cons a r ih =>
    rw [registerTypes_cons] at h
    cases hl : alookup sc.types a with
    | some s =>
      rw [hl] at h
      have h' : x ∈ (registerTypes
          { invalidated := jdel sc.invalidated ident,
            types := aset sc.types a (jadd s ident) } ident r).invalidated := h
      exact jdel_subset _ _ _ (ih _ h')
    | none =>
      rw [hl] at h
      have h' : x ∈ (registerTypes
          { sc with types := aset sc.types a [ident] } ident r).invalidated := h
      exact ih { sc with types := aset sc.types a [ident] } h' 

theorem registerTypes_removed (ts : List String) (sc : StoreCache) (ident : Ident)
    (hnd : sc.invalidated.Nodup) (hex : ∃ t ∈ ts, alookup sc.types t ≠ none) :
    ident ∉ (registerTypes sc ident ts).invalidated := by
  induction ts generalizing sc with
  | nil =>
    obtain ⟨t, ht, _⟩ := hex
    cases ht
  | cons a r ih =>
    rw [registerTypes_cons]
    cases hl : alookup sc.types a with
    | some s =>
      show ident ∉ (registerTypes
          { invalidated := jdel sc.invalidated ident,
            types := aset sc.types a (jadd s ident) } ident r).invalidated
      intro hmem
      exact not_mem_jdel sc.invalidated ident hnd
        (registerTypes_inval_subset r _ ident ident hmem)
    | none =>
      show ident ∉ (registerTypes
          { sc with types := aset sc.types a [ident] } ident r).invalidated
      obtain ⟨t, ht, hne⟩ := hex
      rcases List.mem_cons.mp ht with rfl | htr
      · exact absurd hl hne
      · refine ih { sc with types := aset sc.types a [ident] } hnd ⟨t, htr, ?_⟩
        by_cases hta : t = a
        · subst hta
          simp [alookup_aset_self]
        · rw [alookup_aset_ne _ _ _ _ hta]
          exact hne

theorem registerTypes_fresh (ts : List String) (sc : StoreCache) (ident : Ident)
    (hnd : ts.Nodup) (hall : ∀ t ∈ ts, alookup sc.types t = none) :
    (registerTypes sc ident ts).invalidated = sc.invalidated := by
  induction ts generalizing sc with
  | nil => rfl
  | cons a r ih =>
    rw [registerTypes_cons, hall a (List.mem_cons_self a r)]
    have hnd' := List.nodup_cons.mp hnd
    refine ih { sc with types := aset sc.types a [ident] } hnd'.2 (fun t htr => ?_)
    have hta : t ≠ a := fun he => hnd'.1 (he ▸ htr)
    rw [alookup_aset_ne _ _ _ _ hta]
    exact hall t (List.mem_cons_of_mem a htr)

theorem didRequest_register_eq (p : CachePolicy) (request : RequestInfo)
    (response : Option ResponseInfo) (ident : Ident) (sid : Nat) (ts : List String)
    (hop : ¬request.op = some "createRecord")
    (hts : request.cacheOptions.bind (fun c => c.types) = some ts)
    (hne : ts.length ≠ 0) :
    (didRequest p request response (some ident) sid).1 =
      setStoreRec (getStoreRec p sid).2 sid (registerTypes (storeRecOf p sid) ident ts) := by
  unfold didRequest
  simp only [hop, if_neg, hts, hne, getStoreRec_fst]
  simp [hop, hne]

theorem isHardExpired_no_entry (env : Env) (p : CachePolicy) (store : Store) (identifier : Ident)
    (hinv : identifier ∉ invalidatedOf p store.sid)
    (hpeek : store.peekRequest identifier = none ∨
      ∃ doc, store.peekRequest identifier = some doc ∧ doc.response = none) :
    (isHardExpired env p store identifier).1 = true := by
  have h' : identifier ∉ (getStoreRec p store.sid).1.invalidated := by
    rw [getStoreRec_fst, ← invalidatedOf_eq]
    exact hinv
  unfold isHardExpired
  rcases hpeek with h | ⟨doc, h1, h2⟩
  · simp [h', h]
  · simp [h', h1, h2]

/-- C3: for an identifier that was never invalidated and has no cached
response (no cache entry, or an entry without a response), `isHardExpired`
returns true ("no entry ⇒ hard expired"). -/
theorem C3_no_entry_hard_expired (env : Env) (p : CachePolicy) (store : Store)
    (identifier : Ident)
    (hinv : identifier ∉ invalidatedOf p store.sid)
    (hpeek : store.peekRequest identifier = none ∨
      ∃ doc, store.peekRequest identifier = some doc ∧ doc.response = none) :
    (isHardExpired env p store identifier).1 = true :=
  isHardExpired_no_entry env p store identifier hinv hpeek

/-- Witness for C3: a fresh policy, an empty content cache. -/
theorem C3_witness :
    (isHardExpired { now := 0, testing := false, parseDate := fun _ => 0 }
      { config := { apiCacheSoftExpires := 30000, apiCacheHardExpires := 60000 } }
      { sid := 0, peekRequest := fun _ => none } "doc").1 = true :=
  C3_no_entry_hard_expired _ _ _ _ (by decide) (Or.inl rfl)

/-- C4: with config soft=30000/hard=60000, outside a testing build, a
non-invalidated identifier whose cached response has only a `Date`
header: Date = now − 45000 gives hard-expired false and soft-expired
true (Scenario A); Date = now − 70000 gives hard-expired true
(Scenario B). -/
theorem C4_scenario_a_b (T : Int) :
    (isHardExpired { now := T, testing := false, parseDate := fun _ => T - 45000 }
        { config := { apiCacheSoftExpires := 30000, apiCacheHardExpires := 60000 } }
        { sid := 0, peekRequest := fun _ =>
            some { response := some { status := 200, headers := some ⟨[("Date", "sent")]⟩ } } }
        "id").1 = false ∧
      isSoftExpired { now := T, testing := false, parseDate := fun _ => T - 45000 }
        { config := { apiCacheSoftExpires := 30000, apiCacheHardExpires := 60000 } }
        { sid := 0, peekRequest := fun _ =>
            some { response := some { status := 200, headers := some ⟨[("Date", "sent")]⟩ } } }
        "id" = some true ∧
      (isHardExpired { now := T, testing := false, parseDate := fun _ => T - 70000 }
        { config := { apiCacheSoftExpires := 30000, apiCacheHardExpires := 60000 } }
        { sid := 0, peekRequest := fun _ =>
            some { response := some { status := 200, headers := some ⟨[("Date", "sent")]⟩ } } }
        "id").1 = true := by
  refine ⟨?_, ?_, ?_⟩
  · simp [isHardExpired, getStoreRec, lookupStore, alookup, isExpired,
      isExpiredHeaders, dateFallback, hGet, hFind, lowerStr, lowerChar]
    omega
  · simp [isSoftExpired, hGet, hFind, lowerStr, lowerChar]
    omega
  · simp [isHardExpired, getStoreRec, lookupStore, alookup, isExpired,
      isExpiredHeaders, dateFallback, hGet, hFind, lowerStr, lowerChar]
    omega

/-- C6: a numeric Cache-Control directive whose value is unparseable
(NaN) or negative is clamped to 0 rather than aborting the parse, and
parsing continues with the remaining directives; in particular
`"max-age=not-a-number"` parses to a record mapping `max-age` to 0. -/
theorem C6_malformed_numeric_clamps :
    (∀ s : String,
        (jsParseInt s = none ∨ ∃ v, jsParseInt s = some v ∧ v < 0) →
        parseCacheControlValue s = 0) ∧
      parseCacheControl "max-age=not-a-number" = [("max-age", CCVal.num 0)] ∧
      parseCacheControl "max-age=not-a-number, no-store, s-maxage=40" =
        [("max-age", CCVal.num 0), ("no-store", CCVal.flag), ("s-maxage", CCVal.num 40)] := by
  refine ⟨?_, by decide, by decide⟩
  intro s h
  unfold parseCacheControlValue
  rcases h with h | ⟨v, h, hv⟩
  · rw [h]
  · rw [h]
    simp [hv]

/-- Witness for C6: the unparseable value of Scenario E clamps to 0. -/
theorem C6_witness : parseCacheControlValue "not-a-number" = 0 :=
  C6_malformed_numeric_clamps.1 "not-a-number" (Or.inl (by decide))

/-- C8: constructing a CachePolicy fails with a configuration error when
the config is missing or either expiry duration is not a number, and
succeeds, storing the supplied config, when both durations are numbers. -/
theorem C8_constructor_validation :
    (∃ e, constructPolicy none = Except.error e) ∧
      (∀ c : RawPolicyConfig,
        (¬c.apiCacheSoftExpires.isNumber = true ∨ ¬c.apiCacheHardExpires.isNumber = true) →
        ∃ e, constructPolicy (some c) = Except.error e) ∧
      (∀ (c : RawPolicyConfig) (s h : Int),
        c.apiCacheSoftExpires = JsVal.num s → c.apiCacheHardExpires = JsVal.num h →
        constructPolicy (some c) = Except.ok
          { config :=
              { apiCacheSoftExpires := s, apiCacheHardExpires := h,
                disableTestOptimization := c.disableTestOptimization,
                constraints := c.constraints },
            stores := [] }) := by
  refine ⟨⟨_, rfl⟩, ?_, ?_⟩
  · intro c hc
    unfold constructPolicy
    rcases hc with hc | hc
    · simp [hc]
    · by_cases hs : c.apiCacheSoftExpires.isNumber = true
      · simp [hs, hc]
      · simp [hs]
  · intro c s h hs hh
    unfold constructPolicy
    simp [hs, hh, JsVal.isNumber, JsVal.toNum]

/-- Witness for C8: a config whose soft-expiry duration is a string is
rejected. -/
theorem C8_witness :
    ∃ e, constructPolicy (some { apiCacheSoftExpires := JsVal.str "soon" }) = Except.error e :=
  C8_constructor_validation.2.1 _ (Or.inl (by decide))

/-- C10: the query operations do not change the contents of any store's
invalidation record — `isHardExpired` preserves every store's invalidated
set and type-dependency map exactly, its only state effect being the lazy
creation of an empty record for a store not seen before (`isSoftExpired`
reads no policy state at all and returns only a verdict). -/
theorem C10_queries_do_not_mutate (env : Env) (p : CachePolicy) (store : Store)
    (identifier : Ident) :
    (∀ s', invalidatedOf (isHardExpired env p store identifier).2 s' = invalidatedOf p s') ∧
      (∀ s' t, typeDeps (isHardExpired env p store identifier).2 s' t = typeDeps p s' t) ∧
      (∀ s', lookupStore (isHardExpired env p store identifier).2 s' =
        if s' = store.sid ∧ lookupStore p s' = none then some {} else lookupStore p s') := by
  have hsnd := isHardExpired_snd env p store identifier
  have hlook : ∀ s', lookupStore (isHardExpired env p store identifier).2 s' =
      if s' = store.sid ∧ lookupStore p s' = none then some {} else lookupStore p s' := by
    intro s'
    rw [hsnd, lookupStore_getStoreRec]
    by_cases h1 : s' = store.sid
    · rw [if_pos h1]
      cases h2 : lookupStore p store.sid with
      | some sc =>
        rw [if_neg (by rw [h1, h2]; simp)]
        unfold storeRecOf
        rw [h2, h1, h2]
      | none =>
        rw [if_pos ⟨h1, by rw [h1]; exact h2⟩]
        unfold storeRecOf
        rw [h2]
    · rw [if_neg h1, if_neg (fun hc => h1 hc.1)]
  refine ⟨?_, ?_, hlook⟩
  · intro s'
    rw [invalidatedOf_eq, invalidatedOf_eq]
    unfold storeRecOf
    rw [hlook s']
    by_cases h1 : s' = store.sid ∧ lookupStore p s' = none
    · rw [if_pos h1, h1.2]
    · rw [if_neg h1]
  · intro s' t
    rw [typeDeps_eq, typeDeps_eq]
    unfold storeRecOf
    rw [hlook s']
    by_cases h1 : s' = store.sid ∧ lookupStore p s' = none
    · rw [if_pos h1, h1.2]
    · rw [if_neg h1]

theorem invalidatedOf_didRequest_register (p : CachePolicy) (request : RequestInfo)
    (response : Option ResponseInfo) (ident : Ident) (sid s'' : Nat) (ts : List String)
    (hop : ¬request.op = some "createRecord")
    (hts : request.cacheOptions.bind (fun c => c.types) = some ts)
    (hne : ts.length ≠ 0) :
    invalidatedOf (didRequest p request response (some ident) sid).1 s'' =
      if s'' = sid then (registerTypes (storeRecOf p sid) ident ts).invalidated
      else invalidatedOf p s'' := by
  rw [didRequest_register_eq p request response ident sid ts hop hts hne]
  rw [invalidatedOf_eq]
  unfold storeRecOf
  rw [lookupStore_setStoreRec]
  by_cases hs : s'' = sid
  · rw [if_pos hs, if_pos hs]
  · rw [if_neg hs, if_neg hs, lookupStore_getStoreRec, if_neg hs, invalidatedOf_eq]
    unfold storeRecOf
    rfl

theorem didRequest_noncreate_inval_subset (q : CachePolicy) (req : RequestInfo)
    (resp : Option ResponseInfo) (id' : Option Ident) (sid : Nat) (x : Ident) (s'' : Nat)
    (hop : ¬req.op = some "createRecord")
    (h : x ∈ invalidatedOf (didRequest q req resp id' sid).1 s'') :
    x ∈ invalidatedOf q s'' := by
  cases id' with
  | none =>
    unfold didRequest at h
    rw [if_neg hop] at h
    exact h
  | some ident =>
    cases hts : req.cacheOptions.bind (fun c => c.types) with
    | none =>
      unfold didRequest at h
      rw [if_neg hop, hts] at h
      exact h
    | some ts =>
      by_cases hne : ts.length ≠ 0
      · rw [invalidatedOf_didRequest_register q req resp ident sid s'' ts hop hts hne] at h
        by_cases hs : s'' = sid
        · rw [if_pos hs] at h
          rw [hs, invalidatedOf_eq]
          exact registerTypes_inval_subset ts _ ident x h
        · rw [if_neg hs] at h
          exact h
      · unfold didRequest at h
        rw [if_neg hop, hts] at h
        have h' : x ∈ invalidatedOf
            (if ts.length ≠ 0 then
              (setStoreRec (getStoreRec q sid).2 sid
                (registerTypes (getStoreRec q sid).1 ident ts), ([] : List Ident))
            else (q, [])).1 s'' := h
        rw [if_neg hne] at h'
        exact h' 

/-- C1 (amended): while an identifier is in a store's invalidated set —
in particular right after `invalidateRequest` — `isHardExpired` returns
true regardless of cached headers.  A subsequent `didRequest` whose cache
options list dependent types registers the identifier against each listed
type, but removes it from the invalidated set only when some listed type
already has a dependency-set entry; when every listed type is new to the
store, the invalidated set is left unchanged, so the identifier stays
hard-expired. -/
theorem C1_invalidation_lifecycle (env : Env) (p : CachePolicy) (store : Store)
    (identifier : Ident) (request : RequestInfo) (response : Option ResponseInfo)
    (ts : List String) :
    (identifier ∈ invalidatedOf p store.sid →
        (isHardExpired env p store identifier).1 = true) ∧
      identifier ∈ invalidatedOf (invalidateRequest p identifier store.sid) store.sid ∧
      (¬request.op = some "createRecord" →
        request.cacheOptions.bind (fun c => c.types) = some ts →
        ts.length ≠ 0 →
        (invalidatedOf p store.sid).Nodup →
        ((∃ t ∈ ts, alookup (storeRecOf p store.sid).types t ≠ none) →
            identifier ∉
              invalidatedOf (didRequest p request response (some identifier) store.sid).1
                store.sid) ∧
          (ts.Nodup →
            (∀ t ∈ ts, alookup (storeRecOf p store.sid).types t = none) →
            invalidatedOf (didRequest p request response (some identifier) store.sid).1
                store.sid =
              invalidatedOf p store.sid)) := by
  refine ⟨isHardExpired_of_invalidated env p store identifier, ?_, ?_⟩
  · rw [invalidatedOf_invalidateRequest, mem_jadd]
    exact Or.inr rfl
  · intro hop hts hne hnd
    have hreg := invalidatedOf_didRequest_register p request response identifier store.sid
      store.sid ts hop hts hne
    rw [if_pos rfl] at hreg
    constructor
    · intro hex
      rw [hreg]
      exact registerTypes_removed ts _ identifier (by rw [← invalidatedOf_eq]; exact hnd) hex
    · intro hndts hall
      rw [hreg, registerTypes_fresh ts _ identifier hndts hall, invalidatedOf_eq]

/-- Witness for C1: a store with a pre-existing dependency set for type
`person`; registering an invalidated identifier against `person`
un-invalidates it. -/
theorem C1_witness :
    "doc1" ∉
      invalidatedOf
        (didRequest
          (invalidateRequest
            ((didRequest
                { config := { apiCacheSoftExpires := 30000, apiCacheHardExpires := 60000 } }
                { cacheOptions := some { types := some ["person"] } } none (some "docOther")
                0).1)
            "doc1" 0)
          { cacheOptions := some { types := some ["person"] } } none (some "doc1") 0).1
        0 := by
  have h := C1_invalidation_lifecycle
    { now := 0, testing := false, parseDate := fun _ => 0 }
    (invalidateRequest
      ((didRequest
          { config := { apiCacheSoftExpires := 30000, apiCacheHardExpires := 60000 } }
          { cacheOptions := some { types := some ["person"] } } none (some "docOther") 0).1)
      "doc1" 0)
    { sid := 0, peekRequest := fun _ => none } "doc1"
    { cacheOptions := some { types := some ["person"] } } none ["person"]
  exact (h.2.2 (by decide) (by decide) (by decide) (by decide)).1 (by decide)

/-- C1 counterexample: the claim as stated fails — after
`invalidateRequest("doc1")`, a `didRequest` listing the (previously
unseen) dependent type `person` does register `doc1` against `person`,
yet `doc1` stays in the invalidated set and `isHardExpired` still
returns true even though the cached response is fresh (the same call
without the prior invalidation answers false). -/
theorem C1_counterexample :
    typeDeps
        (didRequest
          (invalidateRequest
            { config := { apiCacheSoftExpires := 30000, apiCacheHardExpires := 60000 } }
            "doc1" 0)
          { cacheOptions := some { types := some ["person"] } } none (some "doc1") 0).1
        0 "person" = ["doc1"] ∧
      invalidatedOf
        (didRequest
          (invalidateRequest
            { config := { apiCacheSoftExpires := 30000, apiCacheHardExpires := 60000 } }
            "doc1" 0)
          { cacheOptions := some { types := some ["person"] } } none (some "doc1") 0).1
        0 = ["doc1"] ∧
      (isHardExpired { now := 1000, testing := false, parseDate := fun _ => 900 }
        (didRequest
          (invalidateRequest
            { config := { apiCacheSoftExpires := 30000, apiCacheHardExpires := 60000 } }
            "doc1" 0)
          { cacheOptions := some { types := some ["person"] } } none (some "doc1") 0).1
        { sid := 0, peekRequest := fun _ =>
            some { response := some { status := 200, headers := some ⟨[("Date", "d")]⟩ } } }
        "doc1").1 = true ∧
      (isHardExpired { now := 1000, testing := false, parseDate := fun _ => 900 }
        (didRequest
          { config := { apiCacheSoftExpires := 30000, apiCacheHardExpires := 60000 } }
          { cacheOptions := some { types := some ["person"] } } none (some "doc1") 0).1
        { sid := 0, peekRequest := fun _ =>
            some { response := some { status := 200, headers := some ⟨[("Date", "d")]⟩ } } }
        "doc1").1 = false := by
  refine ⟨by decide, by decide, by decide, by decide⟩

/-- C5: on a `didRequest` for a create operation with response status in
[200,400), every identifier previously registered as dependent on any
type in the union of the payload record types and the cache-option types
is added to the invalidated set, and `isHardExpired` returns true for it
afterwards; the create branch never touches the type-dependency maps, and
conversely a non-create `didRequest` never adds to any invalidated set
(the two branches are mutually exclusive per call). -/
theorem C5_create_invalidates_dependents (env : Env) (p : CachePolicy) (store : Store)
    (request : RequestInfo) (response : Option ResponseInfo) (identifier : Option Ident)
    (t : String) (dep : Ident)
    (hop : request.op = some "createRecord")
    (h2 : 200 ≤ statusOf response) (h3 : statusOf response < 400)
    (ht : (∃ r ∈ (match request.records with | some rs => rs | none => ([] : List RecordId)),
          r.type = t) ∨
        t ∈ (match request.cacheOptions.bind (fun c => c.types) with
             | some ts => ts
             | none => ([] : List String)))
    (hdep : dep ∈ typeDeps p store.sid t) :
    dep ∈ invalidatedOf (didRequest p request response identifier store.sid).1 store.sid ∧
      (isHardExpired env (didRequest p request response identifier store.sid).1 store dep).1 =
        true ∧
      (∀ s' t',
        typeDeps (didRequest p request response identifier store.sid).1 s' t' =
          typeDeps p s' t') ∧
      (∀ (q : CachePolicy) (req' : RequestInfo) (resp' : Option ResponseInfo)
          (id' : Option Ident) (sid' : Nat) (x : Ident) (s'' : Nat),
        ¬req'.op = some "createRecord" →
        x ∈ invalidatedOf (didRequest q req' resp' id' sid').1 s'' →
        x ∈ invalidatedOf q s'') := by
  have heq := didRequest_create_eq p request response identifier store.sid hop h2 h3
  have hmem : dep ∈ invalidatedOf (didRequest p request response identifier store.sid).1
      store.sid := by
    rw [heq]
    exact invalFold_dep _ _ _ t dep ((mem_collectTypes request t).mpr ht) hdep
  refine ⟨hmem, isHardExpired_of_invalidated env _ store dep hmem, ?_, ?_⟩
  · intro s' t'
    rw [heq]
    exact typeDeps_invalFold _ _ _ _ _
  · intro q req' resp' id' sid' x s'' hop' hx
    exact didRequest_noncreate_inval_subset q req' resp' id' sid' x s'' hop' hx

/-- Witness for C5: Scenario D — a prior query registered `docQ` as
dependent on type `person`; a successful (201) create of a `person`
record hard-expires `docQ`. -/
theorem C5_witness :
    "docQ" ∈
      invalidatedOf
        (didRequest
          ((didRequest
              { config := { apiCacheSoftExpires := 30000, apiCacheHardExpires := 60000 } }
              { cacheOptions := some { types := some ["person"] } } none (some "docQ") 0).1)
          { op := some "createRecord", records := some [{ type := "person", id := some "1" }] }
          (some { status := 201, headers := none }) none 0).1
        0 := by
  have h := C5_create_invalidates_dependents
    { now := 0, testing := false, parseDate := fun _ => 0 }
    ((didRequest
        { config := { apiCacheSoftExpires := 30000, apiCacheHardExpires := 60000 } }
        { cacheOptions := some { types := some ["person"] } } none (some "docQ") 0).1)
    { sid := 0, peekRequest := fun _ => none }
    { op := some "createRecord", records := some [{ type := "person", id := some "1" }] }
    (some { status := 201, headers := none }) none "person" "docQ"
    (by decide) (by decide) (by decide) (Or.inl (by decide)) (by decide)
  exact h.1

theorem isHardExpired_to_headers (env : Env) (p : CachePolicy) (store : Store)
    (identifier : Ident) (doc : StructuredDocument) (resp : ResponseInfo) (headers : HeadersT)
    (cs : Constraints)
    (hinv : identifier ∉ invalidatedOf p store.sid)
    (hpeek : store.peekRequest identifier = some doc)
    (hresp : doc.response = some resp)
    (hhead : resp.headers = some headers)
    (hcfg : p.config.constraints = some cs)
    (hpred : cs.isExpiredFn = none) :
    (isHardExpired env p store identifier).1 = isExpiredHeaders env headers p.config := by
  have h' : identifier ∉ (getStoreRec p store.sid).1.invalidated := by
    rw [getStoreRec_fst, ← invalidatedOf_eq]
    exact hinv
  unfold isHardExpired
  simp [h', hpeek, hresp, isExpired, hcfg, hpred, hhead]

theorem isExpiredHeaders_after_warpdrive (env : Env) (headers : HeadersT)
    (config : PolicyConfig) (cs : Constraints) (hc : HeaderConstraints)
    (hcfg : config.constraints = some cs) (hhc : cs.headers = some hc)
    (hwd : checkWarpDrive env headers hc = none) :
    isExpiredHeaders env headers config =
      match checkCacheControl env headers hc with
      | some r => r
      | none => expiresAndLater env headers hc config := by
  unfold isExpiredHeaders
  rw [hcfg]
  simp [hhc, hwd]

theorem checkCacheControl_applies (env : Env) (headers : HeadersT) (hc : HeaderConstraints)
    (cc age date : String) (ma : Nat) (ageValue : Int)
    (hflag : hc.cacheControl = true)
    (hcc : hGet headers "Cache-Control" = some cc) (hccne : cc ≠ "")
    (hage : hGet headers "Age" = some age) (hagene : age ≠ "")
    (hdate : hGet headers "Date" = some date) (hdatene : date ≠ "")
    (hma : jsOr (ccNum (parseCacheControl cc) "max-age")
        (ccNum (parseCacheControl cc) "s-maxage") = some ma)
    (hmane : ma ≠ 0)
    (hav : jsParseInt10 age = some ageValue) (havnn : 0 ≤ ageValue) :
    checkCacheControl env headers hc =
      some (decide (env.now ≥ env.parseDate date + ((ma : Int) - ageValue) * 1000)) := by
  unfold checkCacheControl
  rw [hflag, hcc, hage, hdate]
  simp only [if_true]
  rw [if_pos ⟨hccne, hagene, hdatene⟩]
  simp only [hma, hav]
  rw [if_pos hmane, if_pos havnn]

theorem checkCacheControl_skipped (env : Env) (headers : HeadersT) (hc : HeaderConstraints)
    (cc age date : String)
    (hcc : hGet headers "Cache-Control" = some cc)
    (hage : hGet headers "Age" = some age)
    (hdate : hGet headers "Date" = some date)
    (hma : jsOr (ccNum (parseCacheControl cc) "max-age")
          (ccNum (parseCacheControl cc) "s-maxage") = none ∨
      jsOr (ccNum (parseCacheControl cc) "max-age")
          (ccNum (parseCacheControl cc) "s-maxage") = some 0) :
    checkCacheControl env headers hc = none := by
  unfold checkCacheControl
  rw [hcc, hage, hdate]
  by_cases hflag : hc.cacheControl = true
  · rw [hflag]
    simp only [if_true]
    by_cases htr : cc ≠ "" ∧ age ≠ "" ∧ date ≠ ""
    · rw [if_pos htr]
      rcases hma with hma | hma
      · simp only [hma]
      · simp only [hma]
        rw [if_neg (by simp)]
    · rw [if_neg htr]
  · simp [hflag]

/-- Headers of the zero-max-age configuration used against C2. -/
def hdZeroMA : HeadersT :=
  ⟨[("Cache-Control", "max-age=0"), ("Age", "0"), ("Date", "d")]⟩

/-- Cached document carrying `hdZeroMA`. -/
def docZeroMA : StructuredDocument :=
  { response := some { status := 200, headers := some hdZeroMA } }

/-- Store whose content cache holds `docZeroMA` for every identifier. -/
def stZeroMA : Store :=
  { sid := 0, peekRequest := fun _ => some docZeroMA }

/-- Policy config with the Cache-Control constraint enabled. -/
def cfgCCon : PolicyConfig :=
  { apiCacheSoftExpires := 30000, apiCacheHardExpires := 60000,
    constraints := some { headers := some { cacheControl := true } } }

/-- Headers of Scenario C: `max-age=100`, `Age: 150`, a `Date` header. -/
def hdScenC : HeadersT :=
  ⟨[("Cache-Control", "max-age=100"), ("Age", "150"), ("Date", "d")]⟩

/-- Cached document carrying `hdScenC`. -/
def docScenC : StructuredDocument :=
  { response := some { status := 200, headers := some hdScenC } }

/-- Store whose content cache holds `docScenC` for every identifier. -/
def stScenC : Store :=
  { sid := 0, peekRequest := fun _ => some docScenC }

/-- Environment of Scenario C: the `Date` header is 10000ms old. -/
def envScenC : Env :=
  { now := 50000, testing := false, parseDate := fun _ => 40000 }

/-- C2 counterexample: the claim's "if and only if" formula fails when
the `max-age` directive parses to 0.  With `Cache-Control: max-age=0`,
`Age: 0`, a `Date` header 1000ms old, the Cache-Control constraint
enabled and a hard-expiry window of 60000ms, the code answers NOT
expired (the zero max-age falls through to the Date check), while the
claim's formula `now ≥ Date + (maxAge − Age)×1000` with the parsed
`max-age` of 0 demands expired. -/
theorem C2_counterexample :
    (isHardExpired { now := 10000, testing := false, parseDate := fun _ => 9000 }
        { config := cfgCCon } stZeroMA "id").1 = false ∧
      ccNum (parseCacheControl "max-age=0") "max-age" = some 0 ∧
      ((10000 : Int) ≥ 9000 + ((0 : Int) - 0) * 1000) := by
  refine ⟨by decide, by decide, by decide⟩

/-- C2 (amended): when the Cache-Control constraint applies — headers
carry truthy `Cache-Control`, `Age` and `Date` values, the constraint is
enabled, no custom predicate or X-WarpDrive-Expires check intercepts,
the selected maxAge (`max-age` preferred unless falsy, else `s-maxage`)
is nonzero, and `Age` parses to a non-negative number — `isHardExpired`
returns true iff `now ≥ Date + (maxAge − Age)×1000`; in particular
Scenario C (max-age=100, Age 150, Date = now − 10000ms) is expired. -/
theorem C2_cache_control_formula (env : Env) (p : CachePolicy) (store : Store)
    (identifier : Ident) (doc : StructuredDocument) (resp : ResponseInfo) (headers : HeadersT)
    (cs : Constraints) (hc : HeaderConstraints)
    (cc age date : String) (ma : Nat) (ageValue : Int)
    (hinv : identifier ∉ invalidatedOf p store.sid)
    (hpeek : store.peekRequest identifier = some doc)
    (hresp : doc.response = some resp)
    (hhead : resp.headers = some headers)
    (hcfg : p.config.constraints = some cs)
    (hpred : cs.isExpiredFn = none)
    (hhc : cs.headers = some hc)
    (hflag : hc.cacheControl = true)
    (hwd : checkWarpDrive env headers hc = none)
    (hcc : hGet headers "Cache-Control" = some cc) (hccne : cc ≠ "")
    (hage : hGet headers "Age" = some age) (hagene : age ≠ "")
    (hdate : hGet headers "Date" = some date) (hdatene : date ≠ "")
    (hma : jsOr (ccNum (parseCacheControl cc) "max-age")
        (ccNum (parseCacheControl cc) "s-maxage") = some ma)
    (hmane : ma ≠ 0)
    (hav : jsParseInt10 age = some ageValue) (havnn : 0 ≤ ageValue) :
    ((isHardExpired env p store identifier).1 = true ↔
        env.now ≥ env.parseDate date + ((ma : Int) - ageValue) * 1000) ∧
      (isHardExpired envScenC { config := cfgCCon } stScenC "id").1 = true := by
  constructor
  · rw [isHardExpired_to_headers env p store identifier doc resp headers cs hinv hpeek hresp
      hhead hcfg hpred]
    rw [isExpiredHeaders_after_warpdrive env headers p.config cs hc hcfg hhc hwd]
    rw [checkCacheControl_applies env headers hc cc age date ma ageValue hflag hcc hccne
      hage hagene hdate hdatene hma hmane hav havnn]
    simp [decide_eq_true_eq]
  · decide

/-- Witness for C2 (amended): Scenario C cast through the general
formula — max-age=100, Age 150, Date = now − 10000ms is expired. -/
theorem C2_witness :
    (isHardExpired envScenC { config := cfgCCon } stScenC "id").1 = true := by
  have h := C2_cache_control_formula envScenC { config := cfgCCon } stScenC "id"
    docScenC { status := 200, headers := some hdScenC } hdScenC
    { headers := some { cacheControl := true } } { cacheControl := true }
    "max-age=100" "150" "d" 100 150
    (by decide) rfl rfl rfl rfl rfl rfl rfl (by decide)
    (by decide) (by decide) (by decide) (by decide) (by decide) (by decide)
    (by decide) (by decide) (by decide) (by decide)
  exact h.1.mpr (by decide)

/-- C9: with `Cache-Control`, `Age` and `Date` headers all present and
the constraint enabled, a selected maxAge of zero (the `max-age`
directive parses to 0 or is absent, and the `s-maxage` fallback is also
0 or absent) makes the Cache-Control check yield no verdict, so
evaluation falls through to the `Expires` constraint and the later
Date-based checks; and a falsy (zero) `max-age` makes a present
`s-maxage` the selected value. -/
theorem C9_zero_max_age_skips (env : Env) (headers : HeadersT) (config : PolicyConfig)
    (cs : Constraints) (hc : HeaderConstraints) (cc age date : String)
    (hcfg : config.constraints = some cs) (hhc : cs.headers = some hc)
    (hwd : checkWarpDrive env headers hc = none)
    (hcc : hGet headers "Cache-Control" = some cc)
    (hage : hGet headers "Age" = some age)
    (hdate : hGet headers "Date" = some date)
    (hma : jsOr (ccNum (parseCacheControl cc) "max-age")
          (ccNum (parseCacheControl cc) "s-maxage") = none ∨
      jsOr (ccNum (parseCacheControl cc) "max-age")
          (ccNum (parseCacheControl cc) "s-maxage") = some 0) :
    checkCacheControl env headers hc = none ∧
      isExpiredHeaders env headers config = expiresAndLater env headers hc config ∧
      (∀ s : String, ccNum (parseCacheControl s) "max-age" = some 0 →
        jsOr (ccNum (parseCacheControl s) "max-age") (ccNum (parseCacheControl s) "s-maxage") =
          ccNum (parseCacheControl s) "s-maxage") := by
  have hskip := checkCacheControl_skipped env headers hc cc age date hcc hage hdate hma
  refine ⟨hskip, ?_, ?_⟩
  · rw [isExpiredHeaders_after_warpdrive env headers config cs hc hcfg hhc hwd, hskip]
  · intro s hs
    rw [hs]
    simp [jsOr]

/-- Witness for C9: `max-age=0` with no `s-maxage` — the whole
Cache-Control check is skipped and the chain continues at `Expires`. -/
theorem C9_witness :
    isExpiredHeaders { now := 10000, testing := false, parseDate := fun _ => 9000 } hdZeroMA
        cfgCCon =
      expiresAndLater { now := 10000, testing := false, parseDate := fun _ => 9000 } hdZeroMA
        { cacheControl := true } cfgCCon := by
  have h := C9_zero_max_age_skips { now := 10000, testing := false, parseDate := fun _ => 9000 }
    hdZeroMA cfgCCon { headers := some { cacheControl := true } } { cacheControl := true }
    "max-age=0" "0" "d" rfl rfl (by decide) (by decide) (by decide) (by decide)
    (Or.inl (by decide))
  exact h.2.1

/-- The ASCII character of a decimal digit. -/
def digitChar (n : Nat) : Char :=
  Char.ofNat (48 + n)

/-- The decimal digit string of a natural number (most significant
first), as emitted by standard decimal formatting of `N`. -/
def decDigits (n : Nat) : List Char :=
  if h : n < 10 then [digitChar n]
  else decDigits (n / 10) ++ [digitChar (n % 10)]
termination_by n
decreasing_by
  exact Nat.div_lt_self (by omega) (by omega)

theorem decDigits_ne_nil (n : Nat) : decDigits n ≠ [] := by
  rw [decDigits]
  by_cases h : n < 10
  · simp [h]
  · simp [h]

theorem digitChar_toNat (n : Nat) (h : n < 10) : (digitChar n).toNat = 48 + n := by
  interval_cases n <;> decide

theorem digitChar_isDigit (n : Nat) (h : n < 10) : isDigitCh (digitChar n) = true := by
  interval_cases n <;> decide

theorem decDigits_all_digits (n : Nat) : ∀ c ∈ decDigits n, isDigitCh c = true := by
  induction n using Nat.strong_induction_on with
  | _ n ih =>
    rw [decDigits]
    by_cases h : n < 10
    · simp only [h, dite_true, List.mem_singleton]
      rintro c rfl
      exact digitChar_isDigit n h
    · simp only [h, dite_false, List.mem_append, List.mem_singleton]
      rintro c (hc | rfl)
      · exact ih (n / 10) (Nat.div_lt_self (by omega) (by omega)) c hc
      · exact digitChar_isDigit (n % 10) (Nat.mod_lt _ (by omega))

theorem decFold_append_one (l : List Char) (c : Char) (a : Nat) :
    decFold (l ++ [c]) a = 10 * decFold l a + (c.toNat - 48) := by
  induction l generalizing a with
  | nil => rfl
  | cons x r ih => simp [decFold, ih]

theorem decFold_decDigits (n : Nat) : decFold (decDigits n) 0 = n := by
  induction n using Nat.strong_induction_on with
  | _ n ih =>
    rw [decDigits]
    by_cases h : n < 10
    · simp only [h, dite_true]
      show decFold [digitChar n] 0 = n
      simp [decFold, digitChar_toNat n h]
    · simp only [h, dite_false]
      rw [decFold_append_one, ih (n / 10) (Nat.div_lt_self (by omega) (by omega)),
        digitChar_toNat (n % 10) (Nat.mod_lt _ (by omega))]
      omega

theorem digit_not_special (c : Char) (h : isDigitCh c = true) :
    c ≠ ',' ∧ c ≠ '=' ∧ ¬(c = ' ' ∨ c = '\t' ∨ c = '\n') ∧ isJsSpace c = false ∧
      c ≠ '-' ∧ c ≠ '+' ∧ c ≠ 'x' ∧ c ≠ 'X' := by
  simp only [isDigitCh, decide_eq_true_eq, Bool.decide_and, Bool.and_eq_true] at h
  refine ⟨?_, ?_, ?_, ?_, ?_, ?_, ?_, ?_⟩
  · rintro rfl; revert h; decide
  · rintro rfl; revert h; decide
  · rintro (rfl | rfl | rfl) <;> revert h <;> decide
  · simp only [isJsSpace]
    rcases h with ⟨h1, h2⟩
    by_cases hs : c = ' ' ∨ c = '\t' ∨ c = '\n' ∨ c = '\r'
    · rcases hs with rfl | rfl | rfl | rfl <;> revert h1 <;> decide
    · simp only [decide_eq_false_iff_not]
      exact fun hc => hs (by simpa using hc)
  · rintro rfl; revert h; decide
  · rintro rfl; revert h; decide
  · rintro rfl; revert h; decide
  · rintro rfl; revert h; decide

theorem takeWhile_all (p : Char → Bool) (l : List Char) (h : ∀ c ∈ l, p c = true) :
    l.takeWhile p = l := by
  induction l with
  | nil => rfl
  | cons c r ih =>
    have hc : p c = true := h c (List.mem_cons_self c r)
    have hr := ih (fun c hcm => h c (List.mem_cons_of_mem _ hcm))
    simp [List.takeWhile_cons, hc, hr]

theorem parseDec_digits (ds : List Char) (h1 : ds ≠ []) (h2 : ∀ c ∈ ds, isDigitCh c = true) :
    parseDec ds = some (decFold ds 0) := by
  cases ds with
  | nil => exact absurd rfl h1
  | cons c r =>
    simp only [parseDec]
    rw [if_pos (h2 c (List.mem_cons_self c r)), takeWhile_all isDigitCh (c :: r) h2]

theorem parseUnsigned_digits (ds : List Char) (h1 : ds ≠ []) (h2 : ∀ c ∈ ds, isDigitCh c = true) :
    parseUnsigned ds = some (decFold ds 0) := by
  have hcond : ¬(ds.head? = some '0' ∧ (ds.drop 1).head? = some 'x' ∨
      ds.head? = some '0' ∧ (ds.drop 1).head? = some 'X') := by
    cases ds with
    | nil => exact absurd rfl h1
    | cons c r =>
      cases r with
      | nil => simp
      | cons c2 r2 =>
        have hd := digit_not_special c2 (h2 c2 (by simp))
        simp only [List.head?_cons, List.drop_one, List.tail_cons, Option.some.injEq]
        rintro (⟨_, hx⟩ | ⟨_, hx⟩)
        · exact hd.2.2.2.2.2.2.1 hx
        · exact hd.2.2.2.2.2.2.2 hx
  unfold parseUnsigned
  rw [if_neg hcond]
  exact parseDec_digits ds h1 h2

theorem jsParseInt_digits (ds : List Char) (h1 : ds ≠ []) (h2 : ∀ c ∈ ds, isDigitCh c = true) :
    jsParseInt (String.mk ds) = some ((decFold ds 0 : Nat) : Int) := by
  cases ds with
  | nil => exact absurd rfl h1
  | cons c r =>
    have hd := digit_not_special c (h2 c (List.mem_cons_self c r))
    unfold jsParseInt
    have hdrop : (String.mk (c :: r)).data.dropWhile isJsSpace = c :: r := by
      show List.dropWhile isJsSpace (c :: r) = c :: r
      rw [List.dropWhile_cons, hd.2.2.2.1]
      simp
    rw [hdrop]
    simp only [jsParseIntCore]
    rw [if_neg hd.2.2.2.2.1, if_neg hd.2.2.2.2.2.1,
      parseUnsigned_digits (c :: r) h1 h2]
    rfl

theorem parseCacheControlValue_digits (ds : List Char) (h1 : ds ≠ [])
    (h2 : ∀ c ∈ ds, isDigitCh c = true) :
    parseCacheControlValue (String.mk ds) = decFold ds 0 := by
  unfold parseCacheControlValue
  rw [jsParseInt_digits ds h1 h2]
  simp

theorem isEmpty_false_of_ne_nil (l : List Char) (h : l ≠ []) : l.isEmpty = false := by
  cases l with
  | nil => exact absurd rfl h
  | cons c r => rfl

theorem ccLoop_keyrun (ks : List Char) (rest : List Char) (key value : List Char)
    (m : CacheControlValue)
    (hks : ∀ c ∈ ks, c ≠ ',' ∧ c ≠ '=' ∧ ¬(c = ' ' ∨ c = '\t' ∨ c = '\n'))
    (hrest : rest ≠ []) :
    ccLoop (ks ++ rest) key value true m = ccLoop rest (key ++ ks) value true m := by
  induction ks generalizing key with
  | nil => simp
  | cons c ks' ih =>
    have hc := hks c (List.mem_cons_self c ks')
    have hne : ks' ++ rest ≠ [] := by
      intro hcontra
      exact hrest (List.append_eq_nil.mp hcontra).2
    show ccLoop (c :: (ks' ++ rest)) key value true m = _
    rw [ccLoop]
    rw [if_neg hc.1, if_neg hc.2.1, if_neg hc.2.2, if_pos rfl,
      isEmpty_false_of_ne_nil _ hne]
    simp only [Bool.false_eq_true, if_false]
    rw [ih (key ++ [c]) (fun x hx => hks x (List.mem_cons_of_mem _ hx))]
    simp

theorem ccLoop_eqchar (rest : List Char) (key value : List Char) (pk : Bool)
    (m : CacheControlValue) (hrest : rest ≠ []) :
    ccLoop ('=' :: rest) key value pk m = ccLoop rest key value false m := by
  rw [ccLoop]
  rw [if_neg (by decide), if_pos rfl, isEmpty_false_of_ne_nil _ hrest]
  simp

theorem ccLoop_digitrun (ds : List Char) (key value : List Char) (m : CacheControlValue)
    (h1 : ds ≠ []) (h2 : ∀ c ∈ ds, isDigitCh c = true) :
    ccLoop ds key value false m = ccAssign m key (value ++ ds) := by
  induction ds generalizing value with
  | nil => exact absurd rfl h1
  | cons c r ih =>
    have hd := digit_not_special c (h2 c (List.mem_cons_self c r))
    rw [ccLoop]
    rw [if_neg hd.1, if_neg hd.2.1, if_neg hd.2.2.1]
    simp only [Bool.false_eq_true, if_false]
    cases r with
    | nil => simp
    | cons c2 r2 =>
      rw [isEmpty_false_of_ne_nil _ (by simp)]
      simp only [Bool.false_eq_true, if_false]
      rw [ih (value ++ [c]) (by simp) (fun x hx => h2 x (List.mem_cons_of_mem _ hx))]
      simp

/-- C7: for every natural number N, parsing the Cache-Control header
string `max-age=N` (decimal digits of N) and reading back the `max-age`
directive yields exactly `N`. -/
theorem C7_max_age_round_trip (N : Nat) :
    alookup (parseCacheControl ("max-age=" ++ String.mk (decDigits N))) "max-age" =
      some (CCVal.num N) := by
  have hds := decDigits_all_digits N
  have hne := decDigits_ne_nil N
  have hdata : ("max-age=" ++ String.mk (decDigits N)).data =
      ['m', 'a', 'x', '-', 'a', 'g', 'e'] ++ ('=' :: decDigits N) := rfl
  show alookup (ccLoop ("max-age=" ++ String.mk (decDigits N)).data [] [] true []) "max-age" =
    some (CCVal.num N)
  rw [hdata]
  rw [ccLoop_keyrun _ _ _ _ _ (by decide) (by simp)]
  rw [ccLoop_eqchar _ _ _ _ _ hne]
  rw [ccLoop_digitrun _ _ _ _ hne hds]
  show alookup (ccAssign [] ['m', 'a', 'x', '-', 'a', 'g', 'e'] (decDigits N)) "max-age" =
    some (CCVal.num N)
  unfold ccAssign
  rw [parseCacheControlValue_digits _ hne hds, decFold_decDigits]
  have hkey : String.mk ['m', 'a', 'x', '-', 'a', 'g', 'e'] = "max-age" := by decide
  rw [hkey]
  simp [aset, alookup, numericKeys]

example : alookup (parseCacheControl "max-age=1234") "max-age" = some (CCVal.num 1234) := by
  decide
